import Mathlib

/-!
Shallow embedding of the youtube-playlist-to-mp3 utility (files
`to_dvd.py`, `src/ffmpeg_utils.py`, `src/audio_normalize.py`).

Pure logic is translated directly; interactions with the outside world
(directory listings, probed durations, the ffmpeg process exit code) become
explicit parameters.  Python floats are modelled by `ℚ`.
-/

namespace YtMp3

/-! ### Python string primitives

Modelled over character lists with structural (fuel-based) recursion so
that every definition evaluates by kernel reduction. -/

/-- Python `str.lower()` (ASCII case folding suffices for this code). -/
def pyLower (s : String) : String := ⟨s.data.map Char.toLower⟩

/-- Python `str.endswith(suffix)`. -/
def pyEndsWith (s suffix : String) : Bool := suffix.data.isSuffixOf s.data

/-- Python `str.strip()`. -/
def pyStrip (s : String) : String :=
  ⟨((s.data.dropWhile Char.isWhitespace).reverse.dropWhile
      Char.isWhitespace).reverse⟩

/-- Worker for `pySplit`: non-overlapping left-to-right split of the
character list on a non-empty separator, `acc` holding the current field in
reverse.  The fuel is at least the input length plus one, so the fuel-zero
case is never reached. -/
def splitAux (sep : List Char) : ℕ → List Char → List Char → List (List Char)
  | 0, rest, acc => [acc.reverse ++ rest]
  | fuel + 1, rest, acc =>
    match rest with
    | [] => [acc.reverse]
    | c :: cs =>
      if sep.isPrefixOf rest then
        acc.reverse :: splitAux sep fuel (rest.drop sep.length) []
      else splitAux sep fuel cs (c :: acc)

/-- Python `s.split(sep)` for non-empty `sep`. -/
def pySplit (s sep : String) : List String :=
  (splitAux sep.data (s.data.length + 1) s.data []).map (fun cs => ⟨cs⟩)

/-- Python substring containment `pat in s` (for non-empty `pat`). -/
def hasSub (s pat : String) : Bool := decide (2 ≤ (pySplit s pat).length)

/-! ### `src/ffmpeg_utils.py`, `get_ffmpeg_path` lines 46-60

The architecture table and the resolution step that follows it.  `machine`
is the lowercased value of `platform.machine()`; the surrounding context is
Linux with no `ffmpeg` on the search path and no cached local binary. -/

def arch_map : List (String × String) :=
  [("x86_64", "amd64"), ("amd64", "amd64"), ("aarch64", "arm64"),
   ("arm64", "arm64"), ("armv7l", "armhf"), ("armv6l", "armel")]

inductive ArchResolution where
  | ok : String → ArchResolution
  | unsupportedExit : ArchResolution
deriving DecidableEq

def ArchResolution.isOk : ArchResolution → Bool
  | .ok _ => true
  | .unsupportedExit => false

/-- Lines 56-60: `arch = arch_map.get(machine, "amd64")` followed by the
membership guard that calls `sys.exit(1)` on an unsupported architecture. -/
def resolveArch (machine : String) : ArchResolution :=
  let arch := (arch_map.lookup machine).getD "amd64"
  if arch ∈ ["amd64", "arm64", "armhf", "armel"] then ArchResolution.ok arch
  else ArchResolution.unsupportedExit

/-! ### Directory model

A directory listing is a list of entries (name, regular-file flag), the
order being the order `os.listdir` returns. -/

structure DirEntry where
  name : String
  isFile : Bool
deriving DecidableEq

/-- `audio_normalize.py` lines 78-82: the MP3 selection in
`normalize_all_mp3_files`. -/
def listMp3FilesNormalize (entries : List DirEntry) : List String :=
  (entries.filter (fun e => pyEndsWith (pyLower e.name) ".mp3" && e.isFile)).map
    (fun e => e.name)

/-- `audio_normalize.py` lines 232-236: the MP3 selection in
`validate_audio_duration`. -/
def listMp3FilesValidate (entries : List DirEntry) : List String :=
  (entries.filter (fun e => pyEndsWith (pyLower e.name) ".mp3" && e.isFile)).map
    (fun e => e.name)

/-! ### `audio_normalize.py` lines 8-59, `normalize_audio_volume`

A filesystem is a partial map from path to content (contents abstracted as
`ℕ`; `0` is the empty file `mkstemp` creates).  `temp` is the fresh name
`tempfile.mkstemp` picks in the directory of `input`; `returncode` is the
ffmpeg exit status and `normContent` the content ffmpeg writes on
success. -/

def fsUpdate (fs : String → Option ℕ) (p : String) (v : Option ℕ) :
    String → Option ℕ :=
  fun q => if q = p then v else fs q

inductive NormResult where
  | exitNoInput : (String → Option ℕ) → NormResult
  | exitFfmpegError : (String → Option ℕ) → NormResult
  | ok : (String → Option ℕ) → NormResult

def NormResult.fsAfter : NormResult → (String → Option ℕ)
  | .exitNoInput fs => fs
  | .exitFfmpegError fs => fs
  | .ok fs => fs

def NormResult.isExitError : NormResult → Bool
  | .exitFfmpegError _ => true
  | _ => false

def NormResult.isOk : NormResult → Bool
  | .ok _ => true
  | _ => false

def normalize_audio_volume (fs : String → Option ℕ) (input temp : String)
    (returncode : ℤ) (normContent : ℕ) : NormResult :=
  if fs input = none then NormResult.exitNoInput fs
  else
    -- tempfile.mkstemp: create the (empty) temporary file
    let fs1 := fsUpdate fs temp (some 0)
    if returncode ≠ 0 then
      -- os.remove(temp_file); sys.exit(1)
      NormResult.exitFfmpegError (fsUpdate fs1 temp none)
    else
      -- ffmpeg wrote the normalized output to temp_file
      let fs2 := fsUpdate fs1 temp (some normContent)
      -- os.replace(temp_file, input_file)
      NormResult.ok (fsUpdate (fsUpdate fs2 input (some normContent)) temp none)

/-! ### `audio_normalize.py` lines 62-105, `normalize_all_mp3_files` -/

inductive NormalizeAllResult where
  | dirMissing : NormalizeAllResult
  | noFiles : NormalizeAllResult
  | ran : List String → NormalizeAllResult
deriving DecidableEq

/-- The control flow of `normalize_all_mp3_files`: missing directory exits,
no qualifying files prints a warning and returns, otherwise each selected
file is normalized in listing order (`ran files`). -/
def normalize_all_mp3_files (dirExists : Bool) (entries : List DirEntry) :
    NormalizeAllResult :=
  if !dirExists then NormalizeAllResult.dirMissing
  else
    let mp3_files := listMp3FilesNormalize entries
    if mp3_files.isEmpty then NormalizeAllResult.noFiles
    else NormalizeAllResult.ran mp3_files

/-! ### `audio_normalize.py` lines 174-192, the ffmpeg fallback branch of
`get_audio_duration`

`toFloat` stands for Python `float()` on the numeric fields; `stderr` is
the diagnostic text of the ffmpeg invocation. -/

/-- `line.split("Duration:")[1].split(",")[0].strip()` (line 179). -/
def durString (line : String) : String :=
  pyStrip ((pySplit ((pySplit line "Duration:").getD 1 "") ",").getD 0 "")

/-- The `for line in stderr.split("\n")` loop of lines 177-189: the first
line containing the marker is parsed; fewer or more than 3 colon-separated
parts is `sys.exit(1)` (`none`), as is exhausting the lines (line 192). -/
def durationFromLines (toFloat : String → ℚ) : List String → Option ℚ
  | [] => none
  | line :: rest =>
    if 2 ≤ (pySplit line "Duration:").length then
      let parts := pySplit (durString line) ":"
      if parts.length = 3 then
        some (toFloat (parts.getD 0 "") * 3600 + toFloat (parts.getD 1 "") * 60 +
          toFloat (parts.getD 2 ""))
      else none
    else durationFromLines toFloat rest

def get_audio_duration_fallback (toFloat : String → ℚ) (stderr : String) :
    Option ℚ :=
  durationFromLines toFloat (pySplit stderr "\n")

/-- Specification-side helper: the first line of the list that contains the
`Duration:` marker. -/
def firstDurationLine : List String → Option String
  | [] => none
  | line :: rest =>
    if 2 ≤ (pySplit line "Duration:").length then some line
    else firstDurationLine rest

/-! ### `audio_normalize.py` lines 195-212, `format_duration` -/

/-- Python `%` on rationals with a positive modulus. -/
def pymod (a b : ℚ) : ℚ := a - b * ⌊a / b⌋

/-- Python `f"{n:02d}"`. -/
def pad2 (n : ℤ) : String :=
  if 0 ≤ n ∧ n < 10 then "0" ++ toString n else toString n

def format_duration (seconds : ℚ) : String :=
  let hours : ℤ := ⌊seconds / 3600⌋
  let minutes : ℤ := ⌊pymod seconds 3600 / 60⌋
  let secs : ℤ := ⌊pymod seconds 60⌋
  if 0 < hours then pad2 hours ++ ":" ++ pad2 minutes ++ ":" ++ pad2 secs
  else pad2 minutes ++ ":" ++ pad2 secs

/-! ### `audio_normalize.py` lines 215-292, `validate_audio_duration`

`dur` is the probed duration (seconds) of each selected file, i.e. the
result of `get_audio_duration` on it. -/

inductive ValidateResult where
  | dirMissing : ValidateResult
  | noFiles : ValidateResult
  | violations : List (String × ℚ) → ValidateResult
  | success : ℚ → ValidateResult
deriving DecidableEq

/-- The per-file loop of lines 257-266: accumulate the running total and
append `(filename, duration/60)` for each file over the limit. -/
def validateLoop (dur : String → ℚ) (maxSec : ℚ) :
    List String → List (String × ℚ) → ℚ → List (String × ℚ) × ℚ
  | [], invalid, total => (invalid, total)
  | f :: rest, invalid, total =>
    let duration := dur f
    let invalid_next :=
      if maxSec < duration then invalid ++ [(f, duration / 60)] else invalid
    validateLoop dur maxSec rest invalid_next (total + duration)

def validate_audio_duration (dirExists : Bool) (entries : List DirEntry)
    (dur : String → ℚ) (max_duration_minutes : ℚ) : ValidateResult :=
  if !dirExists then ValidateResult.dirMissing
  else
    let mp3_files := listMp3FilesValidate entries
    if mp3_files.isEmpty then ValidateResult.noFiles
    else
      let res := validateLoop dur (max_duration_minutes * 60) mp3_files [] 0
      if res.1.isEmpty then ValidateResult.success res.2
      else ValidateResult.violations res.1

/-! ### `to_dvd.py` -/

/-- `to_dvd.py` line 43: `is_single_video = "v=" in playlist_url`. -/
def is_single_video (playlist_url : String) : Bool := hasSub playlist_url "v="

structure InfoOpts where
  quiet : Bool
  no_warnings : Bool
  extract_flat : Bool
  noplaylist : Bool
deriving DecidableEq

/-- `to_dvd.py` lines 59-64: the flat-enumeration options. -/
def mkInfoOpts (playlist_url : String) : InfoOpts :=
  { quiet := true, no_warnings := true, extract_flat := true,
    noplaylist := is_single_video playlist_url }

structure YdlOpts where
  ignoreerrors : Bool
  noplaylist : Bool
  extract_flat : Bool
  hls_use_mpegts : Bool
  preferredquality : String
deriving DecidableEq

/-- `to_dvd.py` lines 101-129: the download options (the fields relevant to
mode selection, plus the bitrate passed to the audio postprocessor). -/
def mkYdlOpts (playlist_url : String) (bitrate : String) : YdlOpts :=
  { ignoreerrors := false, noplaylist := is_single_video playlist_url,
    extract_flat := false, hls_use_mpegts := true, preferredquality := bitrate }

/-! ### `to_dvd.py` lines 81-99, `progress_hook`

An event is one yt-dlp progress dictionary: its `status` value and its
`filename` value (`""` models an absent key, matching `d.get("filename", "")`).
The mutable state is the pair (`downloaded_files`, progress-bar count). -/

structure Event where
  status : String
  filename : String

def hookStep (s : List String × ℕ) (d : Event) : List String × ℕ :=
  if d.status == "finished" then
    if d.filename != "" && !(s.1.contains d.filename) then
      (d.filename :: s.1, s.2 + 1)
    else s
  else s

/-- The cumulative effect of delivering a sequence of events to
`progress_hook`, starting from the empty `downloaded_files` set and a
progress count of 0. -/
def runHooks (events : List Event) : List String × ℕ :=
  events.foldl hookStep ([], 0)

/-- Specification-side helper: the filenames of the events that have status
`"finished"` and a non-empty filename, in order, with repetitions. -/
def finishedNames (events : List Event) : List String :=
  (events.filter (fun e => e.status == "finished" && e.filename != "")).map
    (fun e => e.filename)

/-! ### Concrete fixtures used by the witness theorems -/

/-- A directory listing with two qualifying MP3 files, a non-audio file and
a subdirectory named like an MP3 file. -/
def wEntries : List DirEntry :=
  [⟨"a.mp3", true⟩, ⟨"b.txt", true⟩, ⟨"C.MP3", true⟩, ⟨"d.mp3", false⟩]

/-- A duration oracle with two files over the 79-minute limit. -/
def wDur : String → ℚ := fun f =>
  if f = "a.mp3" then 4800 else if f = "C.MP3" then 6000 else 60

/-- A duration oracle with every file well under the limit. -/
def wDurOk : String → ℚ := fun _ => 60

/-- A one-file filesystem. -/
def wFs : String → Option ℕ := fun p => if p = "a.mp3" then some 5 else none

/-! ## Helper lemmas -/

/-- Closed form of the validation loop: the violation list collects, in
order, every file over the limit, and the total is the sum of all probed
durations. -/
lemma validateLoop_eq (dur : String → ℚ) (maxSec : ℚ) :
    ∀ (files : List String) (invalid : List (String × ℚ)) (total : ℚ),
      validateLoop dur maxSec files invalid total =
        (invalid ++ (files.filter (fun f => decide (maxSec < dur f))).map
            (fun f => (f, dur f / 60)),
          total + (files.map dur).sum) := by
  intro files
  induction files with
  | nil => intro invalid total; simp [validateLoop]
  | cons f rest ih =>
    intro invalid total
    by_cases h : maxSec < dur f
    · simp only [validateLoop, if_pos h, ih]
      simp [List.filter_cons, h, List.append_assoc, add_assoc]
    · simp only [validateLoop, if_neg h, ih]
      simp [List.filter_cons, h, add_assoc]

/-- Invariant of folding `hookStep`: the tracked set stays duplicate-free,
it accumulates exactly the finished non-empty filenames, and the counter
grows by exactly the number of names added to the set. -/
lemma hookFold_invariant :
    ∀ (events : List Event) (ds : List String) (n : ℕ), ds.Nodup →
      (List.foldl hookStep (ds, n) events).1.Nodup ∧
      (List.foldl hookStep (ds, n) events).1.toFinset =
        ds.toFinset ∪ (finishedNames events).toFinset ∧
      (List.foldl hookStep (ds, n) events).2 + ds.length =
        n + (List.foldl hookStep (ds, n) events).1.length := by
  intro events
  induction events with
  | nil =>
    intro ds n h
    simpa [finishedNames] using h
  | cons e rest ih =>
    intro ds n hnd
    simp only [List.foldl_cons]
    by_cases hs : e.status = "finished"
    · by_cases hf : e.filename = ""
      · have hstep : hookStep (ds, n) e = (ds, n) := by
          simp [hookStep, hs, hf]
        have hfin : finishedNames (e :: rest) = finishedNames rest := by
          simp [finishedNames, hf]
        rw [hstep, hfin]
        exact ih ds n hnd
      · by_cases hc : e.filename ∈ ds
        · have hstep : hookStep (ds, n) e = (ds, n) := by
            simp [hookStep, hs, hf, List.contains, List.elem_eq_mem, hc]
          have hfin : finishedNames (e :: rest) =
              e.filename :: finishedNames rest := by
            simp [finishedNames, hs, hf]
          rw [hstep, hfin]
          obtain ⟨h1, h2, h3⟩ := ih ds n hnd
          refine ⟨h1, ?_, h3⟩
          rw [h2, List.toFinset_cons, Finset.union_insert,
            Finset.insert_eq_self.mpr]
          exact Finset.mem_union_left _ (List.mem_toFinset.mpr hc)
        · have hstep : hookStep (ds, n) e = (e.filename :: ds, n + 1) := by
            simp [hookStep, hs, hf, List.contains, List.elem_eq_mem, hc]
          have hfin : finishedNames (e :: rest) =
              e.filename :: finishedNames rest := by
            simp [finishedNames, hs, hf]
          rw [hstep, hfin]
          obtain ⟨h1, h2, h3⟩ :=
            ih (e.filename :: ds) (n + 1) (List.nodup_cons.mpr ⟨hc, hnd⟩)
          refine ⟨h1, ?_, ?_⟩
          · rw [h2, List.toFinset_cons, List.toFinset_cons,
              Finset.insert_union, Finset.union_insert]
          · simp only [List.length_cons] at h3
            omega
    · have hstep : hookStep (ds, n) e = (ds, n) := by
        simp [hookStep, hs]
      have hfin : finishedNames (e :: rest) = finishedNames rest := by
        simp [finishedNames, hs]
      rw [hstep, hfin]
      exact ih ds n hnd

/-- Characterization of the fallback duration parse on an arbitrary line
list (proved by induction, then specialized to `stderr` split on
newlines). -/
lemma durationFromLines_characterization (toFloat : String → ℚ) :
    ∀ L : List String,
      (firstDurationLine L = none → durationFromLines toFloat L = none) ∧
      (∀ line, firstDurationLine L = some line →
        ((pySplit (durString line) ":").length = 3 →
          durationFromLines toFloat L =
            some (toFloat ((pySplit (durString line) ":").getD 0 "") * 3600 +
              toFloat ((pySplit (durString line) ":").getD 1 "") * 60 +
              toFloat ((pySplit (durString line) ":").getD 2 ""))) ∧
        ((pySplit (durString line) ":").length ≠ 3 →
          durationFromLines toFloat L = none)) := by
  intro L
  induction L with
  | nil => simp [firstDurationLine, durationFromLines]
  | cons l rest ih =>
    by_cases h : 2 ≤ (pySplit l "Duration:").length
    · constructor
      · intro hn
        simp [firstDurationLine, h] at hn
      · intro line hl
        simp only [firstDurationLine, if_pos h, Option.some.injEq] at hl
        subst hl
        constructor
        · intro h3
          simp [durationFromLines, h, h3]
        · intro h3
          simp [durationFromLines, h, h3]
    · have h1 : firstDurationLine (l :: rest) = firstDurationLine rest := by
        simp [firstDurationLine, h]
      have h2 : durationFromLines toFloat (l :: rest) =
          durationFromLines toFloat rest := by
        simp [durationFromLines, h]
      rw [h1, h2]
      exact ih

/-- Python `%` with a positive modulus is non-negative. -/
lemma pymod_nonneg (a b : ℚ) (hb : 0 < b) : 0 ≤ pymod a b := by
  have hbne : b ≠ 0 := ne_of_gt hb
  have h : pymod a b = b * Int.fract (a / b) := by
    rw [pymod, Int.fract, mul_sub, mul_div_cancel₀ _ hbne]
  rw [h]
  exact mul_nonneg hb.le (Int.fract_nonneg _)

/-- Python `%` with a positive modulus is below the modulus. -/
lemma pymod_lt (a b : ℚ) (hb : 0 < b) : pymod a b < b := by
  have hbne : b ≠ 0 := ne_of_gt hb
  have h : pymod a b = b * Int.fract (a / b) := by
    rw [pymod, Int.fract, mul_sub, mul_div_cancel₀ _ hbne]
  rw [h]
  calc b * Int.fract (a / b) < b * 1 :=
        (mul_lt_mul_left hb).mpr (Int.fract_lt_one _)
    _ = b := mul_one b

/-! ## Claim theorems -/

/-- C1: the claim asserts that an unknown machine string makes the Binary
Locator exit with an error.  The code instead defaults the unknown machine
to the identifier `amd64` and proceeds to download: `dict.get(machine,
"amd64")` makes the subsequent unsupported-architecture guard dead code, so
`resolveArch` never reaches the exit branch, for any machine string. -/
theorem resolveArch_defaults_unknown :
    resolveArch "riscv64" = ArchResolution.ok "amd64" ∧
    ∀ machine : String, (resolveArch machine).isOk = true := by
  refine ⟨rfl, fun machine => ?_⟩
  simp only [resolveArch, arch_map, List.lookup]
  cases h1 : machine == "x86_64" <;> cases h2 : machine == "amd64" <;>
    cases h3 : machine == "aarch64" <;> cases h4 : machine == "arm64" <;>
    cases h5 : machine == "armv7l" <;> cases h6 : machine == "armv6l" <;>
    simp +decide [h1, h2, h3, h4, h5, h6, ArchResolution.isOk]

/-- C2: on an existing directory with at least one qualifying file,
`validate_audio_duration` ends in the violations outcome exactly when some
file's duration strictly exceeds `max_duration_minutes * 60`; the reported
list then holds precisely the offending files, each with its duration in
minutes, gathered over the whole listing (batch report); with no offender
it ends in the success outcome. -/
theorem validate_audio_duration_batch (entries : List DirEntry)
    (dur : String → ℚ) (maxM : ℚ)
    (hne : listMp3FilesValidate entries ≠ []) :
    ((listMp3FilesValidate entries).filter
        (fun f => decide (maxM * 60 < dur f)) ≠ [] →
      validate_audio_duration true entries dur maxM =
        ValidateResult.violations
          (((listMp3FilesValidate entries).filter
              (fun f => decide (maxM * 60 < dur f))).map
            (fun f => (f, dur f / 60)))) ∧
    ((listMp3FilesValidate entries).filter
        (fun f => decide (maxM * 60 < dur f)) = [] →
      validate_audio_duration true entries dur maxM =
        ValidateResult.success (((listMp3FilesValidate entries).map dur).sum)) := by
  constructor <;> intro hbad <;>
    simp [validate_audio_duration, hne, validateLoop_eq, hbad, List.isEmpty_iff]

/-- Witness for C2: a directory where `a.mp3` (80 min) and `C.MP3`
(100 min) are over the 79 minute limit while `b.txt` and the directory
`d.mp3` are not selected. -/
theorem validate_audio_duration_batch_witness :
    listMp3FilesValidate wEntries ≠ [] ∧
    (listMp3FilesValidate wEntries).filter
      (fun f => decide ((79:ℚ) * 60 < wDur f)) ≠ [] ∧
    validate_audio_duration true wEntries wDur 79 =
      ValidateResult.violations [("a.mp3", 80), ("C.MP3", 100)] := by
  have hne : listMp3FilesValidate wEntries ≠ [] := by decide
  have hbad : (listMp3FilesValidate wEntries).filter
      (fun f => decide ((79:ℚ) * 60 < wDur f)) ≠ [] := by
    simp +decide [listMp3FilesValidate, wEntries, wDur]
    norm_num
  have h := (validate_audio_duration_batch wEntries wDur 79 hne).1 hbad
  refine ⟨hne, hbad, h.trans ?_⟩
  have e1 : listMp3FilesValidate wEntries = ["a.mp3", "C.MP3"] := by decide
  have d1 : wDur "a.mp3" = 4800 := by decide
  have d2 : wDur "C.MP3" = 6000 := by decide
  rw [e1]
  norm_num [d1, d2, List.filter_cons, List.filter_nil]

/-- C3: after any sequence of progress events, the progress counter equals
the number of distinct non-empty filenames having at least one event with
status `finished` — one advance per completed output file no matter how
many lifecycle events fire for it. -/
theorem progress_hook_dedup :
    ∀ events : List Event,
      (runHooks events).2 = (finishedNames events).toFinset.card := by
  intro events
  obtain ⟨h1, h2, h3⟩ := hookFold_invariant events [] 0 List.nodup_nil
  have hlen : (List.foldl hookStep ([], 0) events).1.toFinset.card =
      (List.foldl hookStep ([], 0) events).1.length :=
    List.toFinset_card_of_nodup h1
  simp only [List.toFinset_nil, Finset.empty_union] at h2
  simp only [List.length_nil, Nat.add_zero, Nat.zero_add] at h3
  rw [runHooks, h3, ← hlen, h2]

/-- C4: a URL containing the `v=` marker puts both the enumeration options
and the download options in single-item mode (`noplaylist` true), even if
`list=` is also present; a URL without the marker puts them in collection
mode. -/
theorem single_video_mode :
    ∀ url : String,
      (hasSub url "v=" = true →
        (mkInfoOpts url).noplaylist = true ∧ (mkYdlOpts url "320").noplaylist = true) ∧
      (hasSub url "v=" = false →
        (mkInfoOpts url).noplaylist = false ∧ (mkYdlOpts url "320").noplaylist = false) := by
  intro url
  constructor <;> intro h <;> simp [mkInfoOpts, mkYdlOpts, is_single_video, h]

/-- Witness for C4: a URL containing both the `v=` and the `list=` markers
is still configured in single-item mode. -/
theorem single_video_mode_witness :
    hasSub "https://www.youtube.com/watch?v=abc&list=PL1" "v=" = true ∧
    (mkInfoOpts "https://www.youtube.com/watch?v=abc&list=PL1").noplaylist = true ∧
    (mkYdlOpts "https://www.youtube.com/watch?v=abc&list=PL1" "320").noplaylist = true :=
  ⟨by decide, ((single_video_mode "https://www.youtube.com/watch?v=abc&list=PL1").1 (by decide)).1,
    ((single_video_mode "https://www.youtube.com/watch?v=abc&list=PL1").1 (by decide)).2⟩

/-- C5: on an existing directory whose qualifying files are all within the
limit, `validate_audio_duration` reports success and the reported total is
the arithmetic sum of the individually probed durations. -/
theorem validate_audio_duration_total (entries : List DirEntry)
    (dur : String → ℚ) (maxM : ℚ)
    (hne : listMp3FilesValidate entries ≠ [])
    (hall : ∀ f ∈ listMp3FilesValidate entries, dur f ≤ maxM * 60) :
    validate_audio_duration true entries dur maxM =
      ValidateResult.success (((listMp3FilesValidate entries).map dur).sum) := by
  have hbad : (listMp3FilesValidate entries).filter
      (fun f => decide (maxM * 60 < dur f)) = [] := by
    rw [List.filter_eq_nil_iff]
    intro f hf
    simpa using not_lt.mpr (hall f hf)
  simp [validate_audio_duration, hne, validateLoop_eq, hbad, List.isEmpty_iff]

/-- Witness for C5: two compliant one-minute files give success with total
120 seconds. -/
theorem validate_audio_duration_total_witness :
    listMp3FilesValidate wEntries ≠ [] ∧
    (∀ f ∈ listMp3FilesValidate wEntries, wDurOk f ≤ (79:ℚ) * 60) ∧
    validate_audio_duration true wEntries wDurOk 79 =
      ValidateResult.success 120 := by
  have hne : listMp3FilesValidate wEntries ≠ [] := by decide
  have hall : ∀ f ∈ listMp3FilesValidate wEntries, wDurOk f ≤ (79:ℚ) * 60 := by
    intro f _
    norm_num [wDurOk]
  have h := validate_audio_duration_total wEntries wDurOk 79 hne hall
  refine ⟨hne, hall, h.trans ?_⟩
  have e1 : listMp3FilesValidate wEntries = ["a.mp3", "C.MP3"] := by decide
  rw [e1]
  norm_num [wDurOk]

/-- C6: for an existing input file and a fresh temporary name, a non-zero
ffmpeg exit leaves the run in the fatal-error outcome with the temporary
file removed and the original file unchanged, while a zero exit replaces
the original file's content with the normalized output and removes the
temporary name. -/
theorem normalize_audio_volume_spec
    (fs : String → Option ℕ) (input temp : String) (rc : ℤ) (nc : ℕ)
    (hin : fs input ≠ none) (htemp : fs temp = none) (hne : temp ≠ input) :
    (rc ≠ 0 →
      (normalize_audio_volume fs input temp rc nc).isExitError = true ∧
      (normalize_audio_volume fs input temp rc nc).fsAfter temp = none ∧
      (normalize_audio_volume fs input temp rc nc).fsAfter input = fs input) ∧
    (rc = 0 →
      (normalize_audio_volume fs input temp rc nc).isOk = true ∧
      (normalize_audio_volume fs input temp rc nc).fsAfter input = some nc ∧
      (normalize_audio_volume fs input temp rc nc).fsAfter temp = none) := by
  have hir : input ≠ temp := fun h => hne h.symm
  constructor
  · intro hrc
    simp [normalize_audio_volume, hin, hrc, NormResult.isExitError,
      NormResult.fsAfter, fsUpdate, hir]
  · intro hrc
    simp [normalize_audio_volume, hin, hrc, NormResult.isOk,
      NormResult.fsAfter, fsUpdate, hir]

/-- Witness for C6: one-file filesystem, failing run (exit code 1) keeps
`a.mp3` intact and removes the temporary; successful run (exit code 0)
rewrites `a.mp3` with the normalized content. -/
theorem normalize_audio_volume_spec_witness :
    wFs "a.mp3" ≠ none ∧ wFs "tmp9.mp3" = none ∧
    (normalize_audio_volume wFs "a.mp3" "tmp9.mp3" 1 7).isExitError = true ∧
    (normalize_audio_volume wFs "a.mp3" "tmp9.mp3" 1 7).fsAfter "tmp9.mp3" = none ∧
    (normalize_audio_volume wFs "a.mp3" "tmp9.mp3" 1 7).fsAfter "a.mp3" = wFs "a.mp3" ∧
    (normalize_audio_volume wFs "a.mp3" "tmp9.mp3" 0 7).isOk = true ∧
    (normalize_audio_volume wFs "a.mp3" "tmp9.mp3" 0 7).fsAfter "a.mp3" = some 7 ∧
    (normalize_audio_volume wFs "a.mp3" "tmp9.mp3" 0 7).fsAfter "tmp9.mp3" = none := by
  have h1 := normalize_audio_volume_spec wFs "a.mp3" "tmp9.mp3" 1 7
    (by decide) (by decide) (by decide)
  have h0 := normalize_audio_volume_spec wFs "a.mp3" "tmp9.mp3" 0 7
    (by decide) (by decide) (by decide)
  obtain ⟨ha, hb, hc⟩ := h1.1 (by decide)
  obtain ⟨hd, he, hf⟩ := h0.2 rfl
  exact ⟨by decide, by decide, ha, hb, hc, hd, he, hf⟩

/-- C7: in the ffmpeg fallback path, if no diagnostic line contains the
`Duration:` marker the function exits non-zero (`none`); on the first
marker line, a duration string with exactly three colon-separated parts
yields `hours * 3600 + minutes * 60 + seconds`, and any other number of
parts exits non-zero. -/
theorem get_audio_duration_fallback_spec (toFloat : String → ℚ) (stderr : String) :
    (firstDurationLine (pySplit stderr "\n") = none →
      get_audio_duration_fallback toFloat stderr = none) ∧
    (∀ line, firstDurationLine (pySplit stderr "\n") = some line →
      ((pySplit (durString line) ":").length = 3 →
        get_audio_duration_fallback toFloat stderr =
          some (toFloat ((pySplit (durString line) ":").getD 0 "") * 3600 +
            toFloat ((pySplit (durString line) ":").getD 1 "") * 60 +
            toFloat ((pySplit (durString line) ":").getD 2 ""))) ∧
      ((pySplit (durString line) ":").length ≠ 3 →
        get_audio_duration_fallback toFloat stderr = none)) :=
  durationFromLines_characterization toFloat (pySplit stderr "\n")

/-- Witness for C7: a realistic stderr parses its `Duration:` line into
three parts (here with the constant-1 float oracle, 1*3600 + 1*60 + 1 =
3661), and a stderr without the marker yields `none`. -/
theorem get_audio_duration_fallback_spec_witness :
    firstDurationLine
        (pySplit "junk\n  Duration: 00:03:07.22, start: 0.0\nmore" "\n") =
      some "  Duration: 00:03:07.22, start: 0.0" ∧
    (pySplit (durString "  Duration: 00:03:07.22, start: 0.0") ":").length = 3 ∧
    get_audio_duration_fallback (fun _ => 1)
        "junk\n  Duration: 00:03:07.22, start: 0.0\nmore" = some 3661 ∧
    get_audio_duration_fallback (fun _ => 1) "no marker here" = none := by
  have h := ((get_audio_duration_fallback_spec (fun _ => 1)
      "junk\n  Duration: 00:03:07.22, start: 0.0\nmore").2
      "  Duration: 00:03:07.22, start: 0.0" (by decide)).1 (by decide)
  have hn := (get_audio_duration_fallback_spec (fun _ => 1) "no marker here").1
    (by decide)
  refine ⟨by decide, by decide, h.trans ?_, hn⟩
  norm_num

/-- C8: for a non-negative duration, the minutes and seconds fields are
always between 0 and 59, and the output is `MM:SS` when the whole-hours
part is zero and `HH:MM:SS` when it is positive. -/
theorem format_duration_spec (s : ℚ) (hs : 0 ≤ s) :
    0 ≤ ⌊pymod s 3600 / 60⌋ ∧ ⌊pymod s 3600 / 60⌋ ≤ 59 ∧
    0 ≤ ⌊pymod s 60⌋ ∧ ⌊pymod s 60⌋ ≤ 59 ∧
    (⌊s / 3600⌋ = 0 →
      format_duration s = pad2 ⌊pymod s 3600 / 60⌋ ++ ":" ++ pad2 ⌊pymod s 60⌋) ∧
    (0 < ⌊s / 3600⌋ →
      format_duration s =
        pad2 ⌊s / 3600⌋ ++ ":" ++ pad2 ⌊pymod s 3600 / 60⌋ ++ ":" ++
          pad2 ⌊pymod s 60⌋) := by
  refine ⟨?_, ?_, ?_, ?_, ?_, ?_⟩
  · exact Int.floor_nonneg.mpr
      (div_nonneg (pymod_nonneg s 3600 (by norm_num)) (by norm_num))
  · have : ⌊pymod s 3600 / 60⌋ < 60 := by
      rw [Int.floor_lt]
      push_cast
      rw [div_lt_iff₀ (by norm_num : (0:ℚ) < 60)]
      calc pymod s 3600 < 3600 := pymod_lt s 3600 (by norm_num)
        _ = 60 * 60 := by norm_num
    omega
  · exact Int.floor_nonneg.mpr (pymod_nonneg s 60 (by norm_num))
  · have : ⌊pymod s 60⌋ < 60 := by
      rw [Int.floor_lt]
      push_cast
      exact pymod_lt s 60 (by norm_num)
    omega
  · intro h
    simp [format_duration, h]
  · intro h
    simp [format_duration, h]

/-- Witness for C8: 3725 s renders as `01:02:05` (three fields) and 125 s
as `02:05` (two fields). -/
theorem format_duration_spec_witness :
    (0:ℚ) ≤ 3725 ∧ 0 < ⌊(3725:ℚ) / 3600⌋ ∧
    format_duration 3725 = "01:02:05" ∧
    (0:ℚ) ≤ 125 ∧ ⌊(125:ℚ) / 3600⌋ = 0 ∧
    format_duration 125 = "02:05" := by
  have hfl1 : ⌊(3725:ℚ) / 3600⌋ = 1 := by norm_num [Int.floor_eq_iff]
  have hm1 : pymod (3725:ℚ) 3600 = 125 := by norm_num [pymod, hfl1]
  have hfl2 : ⌊(125:ℚ) / 60⌋ = 2 := by norm_num [Int.floor_eq_iff]
  have hfl3 : ⌊(3725:ℚ) / 60⌋ = 62 := by norm_num [Int.floor_eq_iff]
  have hm2 : pymod (3725:ℚ) 60 = 5 := by norm_num [pymod, hfl3]
  have hfl4 : ⌊(5:ℚ)⌋ = 5 := by norm_num
  have hfl5 : ⌊(125:ℚ) / 3600⌋ = 0 := by norm_num [Int.floor_eq_iff]
  have hm3 : pymod (125:ℚ) 3600 = 125 := by norm_num [pymod, hfl5]
  have hfl6 : ⌊(125:ℚ) / 60⌋ = 2 := by norm_num [Int.floor_eq_iff]
  have hm4 : pymod (125:ℚ) 60 = 5 := by norm_num [pymod, hfl6]
  have h1 := ((((((format_duration_spec 3725 (by norm_num)).2).2).2).2).2)
    (by rw [hfl1]; norm_num)
  have h2 := (((((format_duration_spec 125 (by norm_num)).2).2).2).2).1 hfl5
  rw [hm1, hm2, hfl1] at h1
  rw [hm3, hm4] at h2
  rw [hfl2] at h1
  rw [hfl2] at h2
  refine ⟨by norm_num, by rw [hfl1]; norm_num, ?_, by norm_num, hfl5, ?_⟩
  · rw [h1]
    norm_num [hfl4]
    decide
  · rw [h2]
    norm_num [hfl4]
    decide

/-- C9: on an existing directory with no qualifying files,
`normalize_all_mp3_files` returns the no-op success outcome: no file is
normalized and the process does not exit with an error. -/
theorem normalize_all_empty_noop :
    ∀ entries : List DirEntry, listMp3FilesNormalize entries = [] →
      normalize_all_mp3_files true entries = NormalizeAllResult.noFiles := by
  intro entries h
  simp [normalize_all_mp3_files, h]

/-- Witness for C9: a directory with a text file, an image and a
subdirectory named like an MP3 file selects nothing and is a no-op. -/
theorem normalize_all_empty_noop_witness :
    listMp3FilesNormalize [⟨"notes.txt", true⟩, ⟨"cover.jpg", true⟩, ⟨"sub.mp3", false⟩] = [] ∧
    normalize_all_mp3_files true [⟨"notes.txt", true⟩, ⟨"cover.jpg", true⟩, ⟨"sub.mp3", false⟩] =
      NormalizeAllResult.noFiles :=
  ⟨by decide, normalize_all_empty_noop _ (by decide)⟩

/-- C10: the file-selection predicates of `normalize_all_mp3_files` (lines
78-82) and `validate_audio_duration` (lines 232-236) agree on every
directory listing, so every file the normalizer touches is exactly a file
the duration validator checks. -/
theorem mp3_selector_equivalence :
    ∀ entries : List DirEntry,
      listMp3FilesNormalize entries = listMp3FilesValidate entries := by
  intro entries
  rfl

end YtMp3
